import Mathlib

/-
Shallow embedding of the FastAPI_Course repository's blog examples.

Each namespace below embeds one tutorial application:
  * `ErrH`    — 09-Error_Handling/app/main.py (in-memory dict store, id counter)
  * `PydSA`   — 04-Pydantic/app/main.py (SQLAlchemy/SQLite store, unique title column)
  * `BlogApi` — 06-Pydantic_FastAPI_Blog/app/main.py (users / posts / comments)
  * `PathP`   — 02-Path_Params/app/main.py (Video model validation)

Python `dict`s become insertion-ordered association lists, `datetime.now()`
becomes an explicit `now : Nat` parameter, and a handler returns a pair of
its outcome (`Except Err α`) and the post-call store, so that error cases
still carry the store they leave behind.  An unhandled Python exception
(`AttributeError`, `ValueError`, `IntegrityError`) is `Err.py`, while
`raise HTTPException(...)` is `Err.http`.
-/

/-- Outcome of a handler that does not finish normally: either a raised
`HTTPException` with its status code and detail, or an unhandled Python
exception (which the framework turns into a 500 response). -/
inductive Err where
  | http (code : Nat) (detail : String)
  | py (name : String)
deriving DecidableEq, Repr

/-- Python's `str.lower()` as used by these apps (ASCII titles): lower-case
every character.  (`String.toLower` itself is not used because its `mapAux`
does not reduce in the kernel.) -/
def pyLower (s : String) : String := ⟨s.data.map Char.toLower⟩

namespace ErrH

/-- `PostStatus` enum of 09-Error_Handling (values "draft"/"published"/"archived"). -/
inductive PostStatus where
  | draft
  | published
  | archived
deriving DecidableEq, Repr

/-- Rendering of a `PostStatus` value used in detail strings (the enum's value). -/
def PostStatus.value : PostStatus → String
  | .draft => "draft"
  | .published => "published"
  | .archived => "archived"

/-- One entry of `posts_db`.  `title`, `content` and `status` are `Option`s
because a PATCH body may explicitly set any of these fields to `null`:
Pydantic accepts `null` for an `Optional` field and `dict(exclude_unset=True)`
keeps an explicitly-provided `null`, so `post.update(...)` can store `None`. -/
structure StoredPost where
  id : Nat
  title : Option String
  content : Option String
  author : String
  status : Option PostStatus
  created_at : Nat
  updated_at : Nat
  views : Int
deriving DecidableEq, Repr

/-- Body of `POST /posts/` (`PostCreate`); `status` defaults to `draft`.
The fields are non-`Option` because every field of `PostBase` is required
and none accepts `null`. -/
structure PostCreate where
  title : String
  content : String
  author : String
  status : PostStatus := .draft
deriving DecidableEq, Repr

/-- The `Field` constraints FastAPI enforces (with a 422) before the
`create_post` handler runs: `title` 5..100 chars, `content` at least 50,
`author` 2..50. -/
def PostCreate.wellFormed (pc : PostCreate) : Prop :=
  5 ≤ pc.title.length ∧ pc.title.length ≤ 100 ∧
  50 ≤ pc.content.length ∧
  2 ≤ pc.author.length ∧ pc.author.length ≤ 50

instance (pc : PostCreate) : Decidable pc.wellFormed := by
  unfold PostCreate.wellFormed; infer_instance

/-- Body of `PATCH /posts/{post_id}` (`PostUpdate`).  The outer `Option` is
Pydantic's set/unset distinction (`exclude_unset`): `none` means the field was
absent from the request, `some none` means it was explicitly `null`, and
`some (some v)` means it was set to `v`. -/
structure PostUpdate where
  title : Option (Option String) := none
  content : Option (Option String) := none
  status : Option (Option PostStatus) := none
deriving DecidableEq, Repr

/-- Validation of the `title` field of a PATCH body: a provided non-null
title has 5..100 chars; absent or explicitly-null passes. -/
def titleOKb : Option (Option String) → Bool
  | some (some t) => decide (5 ≤ t.length) && decide (t.length ≤ 100)
  | _ => true

/-- Validation of the `content` field of a PATCH body: a provided non-null
content has at least 50 chars; absent or explicitly-null passes. -/
def contentOKb : Option (Option String) → Bool
  | some (some c) => decide (50 ≤ c.length)
  | _ => true

/-- The constraints FastAPI enforces on a PATCH body before the handler runs.
An explicit `null` passes validation for every field (`Optional` fields
accept `null`, and the length constraints only apply to provided strings). -/
def PostUpdate.wellFormed (pu : PostUpdate) : Prop :=
  titleOKb pu.title = true ∧ contentOKb pu.content = true

instance (pu : PostUpdate) : Decidable pu.wellFormed := by
  unfold PostUpdate.wellFormed
  infer_instance

/-- The whole mutable state of the app: the `posts_db` dict (insertion
ordered) and the global `counter`. -/
structure St where
  posts : List (Nat × StoredPost)
  counter : Nat
deriving DecidableEq, Repr

/-- State at import time: empty dict, `counter = 1`. -/
def initSt : St := ⟨[], 1⟩

/-- `posts_db[pid]` lookup. -/
def findPost (pid : Nat) : List (Nat × StoredPost) → Option StoredPost
  | [] => none
  | (k, p) :: tl => if k = pid then some p else findPost pid tl

/-- `posts_db[k] = p`: overwrite the entry if the key is present, else append
(Python dicts keep insertion order). -/
def dictInsert (k : Nat) (p : StoredPost) : List (Nat × StoredPost) → List (Nat × StoredPost)
  | [] => [(k, p)]
  | (k', p') :: tl => if k' = k then (k, p) :: tl else (k', p') :: dictInsert k p tl

/-- `del posts_db[k]`: drop the entry with that key. -/
def dictErase (k : Nat) : List (Nat × StoredPost) → List (Nat × StoredPost)
  | [] => []
  | (k', p') :: tl => if k' = k then tl else (k', p') :: dictErase k tl

/-- The generator filter `if post_id != exclude_id` of `check_title_exists`:
`true` when the entry is skipped. -/
def excludedKey (excludeId : Option Nat) (k : Nat) : Bool :=
  match excludeId with
  | some e => k == e
  | none => false

/-- `check_title_exists(title, exclude_id)`: scan `posts_db` in insertion
order and report whether some other post has the same lower-cased title.
Evaluating `post["title"].lower()` on a post whose title was nulled raises
`AttributeError`, and `any(...)` short-circuits on the first match, so the
scan stops at whichever of the two comes first. -/
def check_title_exists (title : String) (excludeId : Option Nat) :
    List (Nat × StoredPost) → Except Err Bool
  | [] => .ok false
  | (k, p) :: tl =>
    if excludedKey excludeId k then check_title_exists title excludeId tl
    else
      match p.title with
      | none => .error (.py "AttributeError")
      | some t =>
        if pyLower t = pyLower title then .ok true
        else check_title_exists title excludeId tl

/-- `POST /posts/` (`create_post`): duplicate-title check, then store a new
post under the current `counter` with `views = 0` and bump the counter. -/
def create_post (pc : PostCreate) (now : Nat) (s : St) : Except Err StoredPost × St :=
  match check_title_exists pc.title none s.posts with
  | .error e => (.error e, s)
  | .ok true => (.error (.http 400 "A post with this title already exists"), s)
  | .ok false =>
    let p : StoredPost :=
      { id := s.counter, title := some pc.title, content := some pc.content,
        author := pc.author, status := some pc.status,
        created_at := now, updated_at := now, views := 0 }
    (.ok p, { posts := dictInsert s.counter p s.posts, counter := s.counter + 1 })

/-- `GET /posts/{post_id}` (`get_post`): 404 when missing, else increment the
post's view counter in place and return it. -/
def get_post (pid : Nat) (s : St) : Except Err StoredPost × St :=
  match findPost pid s.posts with
  | none => (.error (.http 404 "Post not found"), s)
  | some p =>
    let p' : StoredPost := { p with views := p.views + 1 }
    (.ok p', { s with posts := dictInsert pid p' s.posts })

/-- `post.update(update_data)` with `update_data = post_update.dict(exclude_unset=True)`
plus the fresh `updated_at`: a field absent from the request is kept, a field
explicitly set (possibly to `null`) is overwritten. -/
def applyUpdate (pu : PostUpdate) (now : Nat) (p : StoredPost) : StoredPost :=
  { p with
    title := match pu.title with | none => p.title | some v => v,
    content := match pu.content with | none => p.content | some v => v,
    status := match pu.status with | none => p.status | some v => v,
    updated_at := now }

/-- The guarded duplicate check of `update_post`:
`if post_update.title and check_title_exists(post_update.title, post_id)`.
`post_update.title` is truthy exactly when it is a provided, non-null,
non-empty string, so the check is skipped otherwise. -/
def title_check (pu : PostUpdate) (pid : Nat) (l : List (Nat × StoredPost)) :
    Except Err Bool :=
  match pu.title with
  | some (some t) =>
    if t.length = 0 then .ok false else check_title_exists t (some pid) l
  | _ => .ok false

/-- The guarded transition check of `update_post`: `if post_update.status`
is truthy exactly when the provided status is non-null (every enum value is a
non-empty string); `PostStatus(post["status"])` raises `ValueError` when the
stored status was nulled earlier; leaving `archived` is a 400. -/
def status_check (pu : PostUpdate) (p : StoredPost) : Except Err Unit :=
  match pu.status with
  | some (some newStatus) =>
    match p.status with
    | none => .error (.py "ValueError")
    | some cur =>
      if cur = .archived ∧ newStatus ≠ .archived then
        .error (.http 400 ("Cannot transition from " ++ cur.value ++ " to " ++ newStatus.value))
      else .ok ()
  | _ => .ok ()

/-- `PATCH /posts/{post_id}` (`update_post`): 404 when the id is absent, then
the guarded duplicate check, then the guarded transition check, and only then
the in-place `post.update(update_data)`. -/
def update_post (pid : Nat) (pu : PostUpdate) (now : Nat) (s : St) :
    Except Err StoredPost × St :=
  match findPost pid s.posts with
  | none => (.error (.http 404 "Post not found"), s)
  | some p =>
    match title_check pu pid s.posts with
    | .error e => (.error e, s)
    | .ok true => (.error (.http 400 "A post with this title already exists"), s)
    | .ok false =>
      match status_check pu p with
      | .error e => (.error e, s)
      | .ok _ =>
        let p' := applyUpdate pu now p
        (.ok p', { s with posts := dictInsert pid p' s.posts })

/-- `DELETE /posts/{post_id}` (`delete_post`): 404 when missing, else remove. -/
def delete_post (pid : Nat) (s : St) : Except Err Unit × St :=
  match findPost pid s.posts with
  | none => (.error (.http 404 "Post not found"), s)
  | some _ => (.ok (), { s with posts := dictErase pid s.posts })

/-- `GET /posts/` (`list_posts`).  When the (possibly filtered) list is empty
the handler executes `return Response(status_code=status.HTTP_204_NO_CONTENT)`;
there `status` is the query parameter (either `None` or a `PostStatus` value,
shadowing the `fastapi.status` module) and `Response` is `requests.Response`,
so evaluating `status.HTTP_204_NO_CONTENT` raises `AttributeError`. -/
def list_posts (skip limit : Nat) (statusQ : Option PostStatus) (s : St) :
    Except Err (List StoredPost) × St :=
  let posts := s.posts.map Prod.snd
  let posts :=
    match statusQ with
    | some st => posts.filter (fun (p : StoredPost) => p.status == some st)
    | none => posts
  (if posts.isEmpty then .error (.py "AttributeError")
   else .ok ((posts.drop skip).take limit), s)

/-- One API call, with the data the environment supplies (body, clock). -/
inductive Op where
  | create (pc : PostCreate) (now : Nat)
  | listing (skip limit : Nat) (statusQ : Option PostStatus)
  | get (pid : Nat)
  | update (pid : Nat) (pu : PostUpdate) (now : Nat)
  | del (pid : Nat)

/-- The store an API call leaves behind. -/
def step (s : St) : Op → St
  | .create pc now => (create_post pc now s).2
  | .listing a b f => (list_posts a b f s).2
  | .get pid => (get_post pid s).2
  | .update pid pu now => (update_post pid pu now s).2
  | .del pid => (delete_post pid s).2

/-- Run a sequence of API calls from a store. -/
def run (s : St) : List Op → St
  | [] => s
  | op :: tl => run (step s op) tl

/-- Stores reachable from startup through validated requests: FastAPI rejects
a body violating the `Field` constraints with a 422 before the handler runs,
so only well-formed bodies reach `create_post` / `update_post`. -/
inductive Reach : St → Prop where
  | init : Reach initSt
  | create {s : St} (pc : PostCreate) (now : Nat) :
      Reach s → pc.wellFormed → Reach (create_post pc now s).2
  | listing {s : St} (skip limit : Nat) (statusQ : Option PostStatus) :
      Reach s → Reach (list_posts skip limit statusQ s).2
  | get {s : St} (pid : Nat) : Reach s → Reach (get_post pid s).2
  | update {s : St} (pid : Nat) (pu : PostUpdate) (now : Nat) :
      Reach s → pu.wellFormed → Reach (update_post pid pu now s).2
  | del {s : St} (pid : Nat) : Reach s → Reach (delete_post pid s).2

end ErrH

namespace PydSA

/-- One row of the `posts` table of 04-Pydantic/app/main.py.  Every data
column is nullable (no `nullable=False` in the model), so an update that
explicitly sends `null` can store SQL `NULL`; `status` has the column default
`draft` applied on insert. -/
structure Row where
  id : Nat
  title : Option String
  content : Option String
  author : Option String
  status : Option ErrH.PostStatus
deriving DecidableEq, Repr

/-- Body of `POST /posts/` in the 04 variant: `PostBase` has no `Field`
constraints, so any strings are accepted. -/
structure PostCreate where
  title : String
  content : String
  author : String
deriving DecidableEq, Repr

/-- Body of `PATCH /posts/{post_id}` in the 04 variant, with Pydantic's
set/unset distinction as in `ErrH.PostUpdate`; `author` is updatable here. -/
structure PostUpdate where
  title : Option (Option String) := none
  content : Option (Option String) := none
  author : Option (Option String) := none
  status : Option (Option ErrH.PostStatus) := none
deriving DecidableEq, Repr

/-- The `posts` table, in rowid order. -/
structure Tbl where
  rows : List Row
deriving DecidableEq, Repr

/-- Fresh SQLite rowid: one more than the largest id present. -/
def nextId (rows : List Row) : Nat :=
  (rows.map Row.id).foldr max 0 + 1

/-- SQL equality `BlogPost.title == t` on a possibly-NULL column: NULL never
compares equal (case-sensitive, BINARY collation). -/
def titleEqSQL (rowTitle : Option String) (t : String) : Bool :=
  match rowTitle with
  | some u => u == t
  | none => false

/-- `db.query(BlogPost).filter(BlogPost.title == t).first()`. -/
def find_by_title (t : String) (rows : List Row) : Option Row :=
  rows.find? (fun r => titleEqSQL r.title t)

/-- `db.query(BlogPost).filter(BlogPost.id == pid).first()`. -/
def find_by_id (pid : Nat) (rows : List Row) : Option Row :=
  rows.find? (fun r => r.id == pid)

/-- The UNIQUE constraint on `title`: `r` conflicts with the other rows when
some row with a different id carries the same non-NULL title (SQL UNIQUE
admits any number of NULLs). -/
def titleConflict (rows : List Row) (r : Row) : Bool :=
  rows.any (fun r' =>
    r'.id != r.id &&
      match r.title, r'.title with
      | some a, some b => a == b
      | _, _ => false)

/-- `POST /posts/` of the 04 variant: exact-match duplicate check, then
insert; `db.commit()` raises `IntegrityError` if the UNIQUE constraint on
`title` is violated (unreachable after the check, kept for fidelity). -/
def create_post (pc : PostCreate) (s : Tbl) : Except Err Row × Tbl :=
  match find_by_title pc.title s.rows with
  | some _ => (.error (.http 400 "A post with this title already exists"), s)
  | none =>
    let r : Row :=
      { id := nextId s.rows, title := some pc.title, content := some pc.content,
        author := some pc.author, status := some .draft }
    if titleConflict s.rows r then (.error (.py "IntegrityError"), s)
    else (.ok r, ⟨s.rows ++ [r]⟩)

/-- `GET /posts/{post_id}` of the 04 variant: 404 or the row (no counter). -/
def get_post (pid : Nat) (s : Tbl) : Except Err Row × Tbl :=
  match find_by_id pid s.rows with
  | none => (.error (.http 404 "Post not found"), s)
  | some r => (.ok r, s)

/-- Apply `update_data = post_update.dict(exclude_unset=True)` to a row. -/
def applyUpdate (pu : PostUpdate) (r : Row) : Row :=
  { r with
    title := match pu.title with | none => r.title | some v => v,
    content := match pu.content with | none => r.content | some v => v,
    author := match pu.author with | none => r.author | some v => v,
    status := match pu.status with | none => r.status | some v => v }

/-- `PATCH /posts/{post_id}` of the 04 variant: 404 when missing; the only
validation is the archived-status lock (guarded by the truthiness of
`post_update.status`).  There is no duplicate-title check here: the `setattr`
loop runs and `db.commit()` raises `IntegrityError` (the transaction rolls
back, leaving the table unchanged) whenever the new title collides with
another row's title. -/
def update_post (pid : Nat) (pu : PostUpdate) (s : Tbl) : Except Err Row × Tbl :=
  match find_by_id pid s.rows with
  | none => (.error (.http 404 "Post not found"), s)
  | some r =>
    match pu.status with
    | some (some newStatus) =>
      if r.status = some .archived ∧ newStatus ≠ .archived then
        (.error (.http 400 "Cannot transition from archived to published"), s)
      else
        let r' := applyUpdate pu r
        if titleConflict s.rows r' then
          (.error (.py "IntegrityError"), s)
        else (.ok r', ⟨s.rows.map (fun q => if q.id == pid then r' else q)⟩)
    | _ =>
      let r' := applyUpdate pu r
      if titleConflict s.rows r' then
        (.error (.py "IntegrityError"), s)
      else (.ok r', ⟨s.rows.map (fun q => if q.id == pid then r' else q)⟩)

/-- `DELETE /posts/{post_id}` of the 04 variant. -/
def delete_post (pid : Nat) (s : Tbl) : Except Err Unit × Tbl :=
  match find_by_id pid s.rows with
  | none => (.error (.http 404 "Post not found"), s)
  | some _ => (.ok (), ⟨s.rows.filter (fun q => q.id != pid)⟩)

/-- `GET /posts/` of the 04 variant: the whole table. -/
def list_posts (s : Tbl) : Except Err (List Row) × Tbl :=
  (.ok s.rows, s)

end PydSA

namespace BlogApi

/-
06-Pydantic_FastAPI_Blog stores plain dicts in `db = {"users": {}, "posts":
{}, "comments": {}}`.  The nested objects (`user["posts"]`, `post["author"]`,
`post["comments"]`, ...) are aliases of the dicts stored in the top-level
tables, so the cyclic object graph is represented relationally: a record
keeps the ids of the objects it references.  `uuid4()` results are modelled
as `Nat` parameters supplied by the environment.  The record fields mirror
the dict keys written by `main.py` (`models.py` itself is not part of the
corpus; the request bodies below carry exactly the fields `main.py` reads).
-/

/-- One entry of `db["users"]`. -/
structure User where
  id : Nat
  username : String
  email : String
  full_name : Option String
  bio : Option String
  created_at : Nat
  updated_at : Option Nat
  is_active : Bool
  posts : List Nat
  comments : List Nat
deriving DecidableEq, Repr

/-- One entry of `db["posts"]`; `author` in the dict is an alias of the
author's user dict, kept here as `author_id`. -/
structure Post where
  id : Nat
  title : String
  content : String
  created_at : Nat
  updated_at : Option Nat
  published : Bool
  author_id : Nat
  comments : List Nat
deriving DecidableEq, Repr

/-- One entry of `db["comments"]`; `author` is an alias of the author's user
dict, kept as `author_id`. -/
structure Comment where
  id : Nat
  content : String
  created_at : Nat
  updated_at : Option Nat
  author_id : Nat
  post_id : Nat
deriving DecidableEq, Repr

/-- Body of `POST /users/` (the fields `create_user` reads). -/
structure UserCreate where
  username : String
  email : String
  full_name : Option String
  bio : Option String
deriving DecidableEq, Repr

/-- Body of `POST /users/{user_id}/posts/` (the fields `create_post` reads). -/
structure PostCreate where
  title : String
  content : String
  published : Bool
deriving DecidableEq, Repr

/-- Body of `POST /posts/{post_id}/comments/` (the field `create_comment` reads). -/
structure CommentCreate where
  content : String
deriving DecidableEq, Repr

/-- The whole `db` dict. -/
structure Db where
  users : List (Nat × User)
  posts : List (Nat × Post)
  comments : List (Nat × Comment)
deriving DecidableEq, Repr

/-- `db` at import time. -/
def initDb : Db := ⟨[], [], []⟩

/-- Dict lookup (`db[table].get(k)` / `db[table][k]`). -/
def alookup {β : Type} (k : Nat) : List (Nat × β) → Option β
  | [] => none
  | (k', v) :: tl => if k' = k then some v else alookup k tl

/-- Dict assignment `db[table][k] = v` (overwrite or append). -/
def ainsert {β : Type} (k : Nat) (v : β) : List (Nat × β) → List (Nat × β)
  | [] => [(k, v)]
  | (k', v') :: tl => if k' = k then (k, v) :: tl else (k', v') :: ainsert k v tl

/-- In-place mutation of the object stored under `k` (Python mutates the
aliased dict, so the table entry changes too). -/
def amodify {β : Type} (k : Nat) (f : β → β) : List (Nat × β) → List (Nat × β)
  | [] => []
  | (k', v') :: tl => if k' = k then (k', f v') :: tl else (k', v') :: amodify k f tl

/-- `get_current_user` dependency: 404 "User not found" when the id is absent
(a stored user dict is never empty, so `if not user` is exactly the `None`
test). -/
def get_current_user (uid : Nat) (s : Db) : Except Err User :=
  match alookup uid s.users with
  | none => .error (.http 404 "User not found")
  | some u => .ok u

/-- `POST /users/` (`create_user`): always succeeds, storing a fresh user
with empty `posts` and `comments` lists and `is_active = True`. -/
def create_user (uid : Nat) (uc : UserCreate) (now : Nat) (s : Db) :
    Except Err User × Db :=
  let u : User :=
    { id := uid, username := uc.username, email := uc.email,
      full_name := uc.full_name, bio := uc.bio,
      created_at := now, updated_at := none, is_active := true,
      posts := [], comments := [] }
  (.ok u, { s with users := ainsert uid u s.users })

/-- `POST /users/{user_id}/posts/` (`create_post`): the `get_current_user`
dependency 404s for an unknown user; otherwise a post owned by `uid` is
stored and appended (as an alias) to the user's `posts` list. -/
def create_post (uid : Nat) (pc : PostCreate) (pid : Nat) (now : Nat) (s : Db) :
    Except Err Post × Db :=
  match get_current_user uid s with
  | .error e => (.error e, s)
  | .ok _ =>
    let p : Post :=
      { id := pid, title := pc.title, content := pc.content,
        created_at := now, updated_at := none, published := pc.published,
        author_id := uid, comments := [] }
    (.ok p,
      { s with
        posts := ainsert pid p s.posts,
        users := amodify uid (fun u => { u with posts := u.posts ++ [pid] }) s.users })

/-- `POST /posts/{post_id}/comments/` (`create_comment`): the dependency 404s
for an unknown user, the handler 404s for an unknown post; otherwise the
comment is stored and appended (as an alias) to both the post's and the
author's `comments` lists. -/
def create_comment (uid : Nat) (pid : Nat) (cc : CommentCreate) (cid : Nat)
    (now : Nat) (s : Db) : Except Err Comment × Db :=
  match get_current_user uid s with
  | .error e => (.error e, s)
  | .ok u =>
    match alookup pid s.posts with
    | none => (.error (.http 404 "Post not found"), s)
    | some _ =>
      let c : Comment :=
        { id := cid, content := cc.content, created_at := now,
          updated_at := none, author_id := u.id, post_id := pid }
      (.ok c,
        { s with
          comments := ainsert cid c s.comments,
          posts := amodify pid (fun p => { p with comments := p.comments ++ [cid] }) s.posts,
          users := amodify u.id (fun v => { v with comments := v.comments ++ [cid] }) s.users })

/-- The remaining endpoints (`GET /users/`, `GET /users/{id}`, `GET /posts/`,
`GET /posts/{id}`, `GET /posts/{id}/comments/`, `GET /`) read `db` without
modifying it, so the mutating calls below generate every reachable store. -/
inductive Reach : Db → Prop where
  | init : Reach initDb
  | user {s : Db} (uid : Nat) (uc : UserCreate) (now : Nat) :
      Reach s → Reach (create_user uid uc now s).2
  | post {s : Db} (uid : Nat) (pc : PostCreate) (pid : Nat) (now : Nat) :
      Reach s → Reach (create_post uid pc pid now s).2
  | comment {s : Db} (uid : Nat) (pid : Nat) (cc : CommentCreate) (cid : Nat) (now : Nat) :
      Reach s → Reach (create_comment uid pid cc cid now s).2

end BlogApi

namespace PathP

/-- `VideoCategory` enum of 02-Path_Params. -/
inductive VideoCategory where
  | tech
  | gaming
  | music
deriving DecidableEq, Repr

/-- The `Video` Pydantic model of 02-Path_Params.  `views` and `likes` are
`Int` because Python's `int` is unbounded and signed; the `ge=0` bound is
part of validation, not of the type. -/
structure Video where
  id : Int
  title : String
  description : Option String
  category : VideoCategory
  views : Int
  likes : Int
deriving DecidableEq, Repr

/-- Validation of the optional `description`: at most 200 chars when present. -/
def descrOKb : Option String → Bool
  | some d => decide (d.length ≤ 200)
  | none => true

/-- The declarative validation of `Video`: `title` 3..50 chars, `description`
at most 200 when present, `views >= 0`, `likes >= 0`.  A request body not
satisfying this is rejected with a 422 and no `Video` value is accepted. -/
def Video.accepted (v : Video) : Prop :=
  3 ≤ v.title.length ∧ v.title.length ≤ 50 ∧ descrOKb v.description = true ∧
  0 ≤ v.views ∧ 0 ≤ v.likes

instance (v : Video) : Decidable v.accepted := by
  unfold Video.accepted; infer_instance

/-- The first entry of the source's static `videos` dict. -/
def exVideo : Video :=
  { id := 1, title := "FastAPI Tutorial", description := some "Learn FastAPI basics",
    category := .tech, views := 1500, likes := 200 }

end PathP

namespace ErrH

/-- Concrete request body material: a content string of more than 50 chars. -/
def exContent : String :=
  "This example content is certainly longer than fifty characters in total."

/-- A valid creation body whose status is archived from the start. -/
def exPcArchived : PostCreate :=
  { title := "My Archived Post", content := exContent, author := "Jo",
    status := .archived }

/-- A valid creation body with the default draft status. -/
def exPcDraft : PostCreate :=
  { title := "Hello World Post", content := exContent, author := "Jo" }

/-- The store after creating `exPcArchived` at startup: one archived post, id 1. -/
def exStArchived : St := (create_post exPcArchived 0 initSt).2

/-- The store after creating `exPcDraft` at startup: one draft post, id 1. -/
def exStDraft : St := (create_post exPcDraft 0 initSt).2

/-- The PATCH body whose JSON is exactly the object with status set to null
(title and content absent). -/
def exNullStatusUpdate : PostUpdate := { status := some none }

/-- The store after creating `exPcDraft` and then `exPcArchived`: posts 1 and 2. -/
def exStTwo : St := (create_post exPcArchived 1 exStDraft).2

/-- The stored record of post 1 in `exStDraft` / `exStTwo`. -/
def exPost1 : StoredPost :=
  { id := 1, title := some "Hello World Post", content := some exContent,
    author := "Jo", status := some .draft, created_at := 0, updated_at := 0,
    views := 0 }

/-- The stored record of post 2 in `exStTwo`. -/
def exPost2 : StoredPost :=
  { id := 2, title := some "My Archived Post", content := some exContent,
    author := "Jo", status := some .archived, created_at := 1, updated_at := 1,
    views := 0 }

/-- Did the handler finish normally? -/
def isOk {α : Type} : Except Err α → Bool
  | .ok _ => true
  | _ => false

/-- Did the call raise an `HTTPException` with status code 404? -/
def raised404 {α : Type} (r : Except Err α × St) : Bool :=
  match r.1 with
  | .error (.http 404 _) => true
  | _ => false

/-- Every non-null title in `l` differs case-insensitively from `t`. -/
def TitleFresh (t : String) (l : List (Nat × StoredPost)) : Prop :=
  ∀ kp ∈ l, ∀ u, kp.2.title = some u → pyLower u ≠ pyLower t

/-- Well-formedness of the store contents: keys are pairwise distinct and
non-null titles are pairwise distinct case-insensitively. -/
def PostsWF : List (Nat × StoredPost) → Prop
  | [] => True
  | (k, p) :: tl =>
    (∀ kq ∈ tl, kq.1 ≠ k) ∧ (∀ u, p.title = some u → TitleFresh u tl) ∧ PostsWF tl

/-- Every key of the store is below `c`. -/
def KeysLt (c : Nat) (l : List (Nat × StoredPost)) : Prop :=
  ∀ kp ∈ l, kp.1 < c

/-- Every stored view counter is non-negative. -/
def ViewsOK (l : List (Nat × StoredPost)) : Prop :=
  ∀ kp ∈ l, 0 ≤ kp.2.views

/-- Every stored post's `id` field equals its dict key. -/
def IdsOK (l : List (Nat × StoredPost)) : Prop :=
  ∀ kp ∈ l, kp.2.id = kp.1

/-- The inductive invariant of the 09 app's store. -/
def Inv (s : St) : Prop :=
  1 ≤ s.counter ∧ KeysLt s.counter s.posts ∧ IdsOK s.posts ∧
    ViewsOK s.posts ∧ PostsWF s.posts

/-- How much an API call advances the global `counter` from store `s`:
1 for a succeeding `create_post`, 0 otherwise. -/
def createInc (s : St) : Op → Nat
  | .create pc now => if isOk (create_post pc now s).1 then 1 else 0
  | _ => 0

/-- Number of succeeding `create_post` calls along a run from `s`. -/
def succCreates : St → List Op → Nat
  | _, [] => 0
  | s, op :: tl => createInc s op + succCreates (step s op) tl

end ErrH

namespace PydSA

/-- Two posts created through the 04 variant's `create_post` at startup:
ids 1 and 2 with distinct titles. -/
def exTblTwo : Tbl :=
  (create_post { title := "Another Nice Post", content := "Second body", author := "Bob" }
    (create_post { title := "Hello World Post", content := "First body", author := "Ann" }
      ⟨[]⟩).2).2

/-- The PATCH body retitling a post to the title post 1 already has. -/
def exDupTitleUpdate : PostUpdate := { title := some (some "Hello World Post") }

end PydSA

namespace BlogApi

/-- A user-creation body. -/
def exAlice : UserCreate :=
  { username := "alice", email := "alice@example.com", full_name := none, bio := none }

/-- A post-creation body. -/
def exPostBody : PostCreate := { title := "First post", content := "hello world", published := true }

/-- A comment-creation body. -/
def exCommentBody : CommentCreate := { content := "Nice post" }

/-- The store after `POST /users/` assigned id 10 to alice. -/
def exDbU : Db := (create_user 10 exAlice 0 initDb).2

/-- The store after alice then created post 20. -/
def exDbUP : Db := (create_post 10 exPostBody 20 1 exDbU).2

/-- The store after alice commented (comment 30) on post 20. -/
def exDbUPC : Db := (create_comment 10 20 exCommentBody 30 2 exDbUP).2

/-- Alice's stored user dict right after creation. -/
def exAliceU0 : User :=
  { id := 10, username := "alice", email := "alice@example.com",
    full_name := none, bio := none, created_at := 0, updated_at := none,
    is_active := true, posts := [], comments := [] }

/-- Alice's stored user dict after she created post 20. -/
def exAliceU1 : User :=
  { id := 10, username := "alice", email := "alice@example.com",
    full_name := none, bio := none, created_at := 0, updated_at := none,
    is_active := true, posts := [20], comments := [] }

/-- The stored dict of post 20. -/
def exPost20 : Post :=
  { id := 20, title := "First post", content := "hello world",
    created_at := 1, updated_at := none, published := true,
    author_id := 10, comments := [] }

/-- Every stored user dict's `id` field equals its key in `db["users"]`
(`create_user` always writes it that way). -/
def UserIdsOK (l : List (Nat × User)) : Prop :=
  ∀ ku ∈ l, ku.2.id = ku.1

/-- Every stored comment refers to an existing user (its author) and an
existing post. -/
def RefsOK (s : Db) : Prop :=
  ∀ kc ∈ s.comments,
    (alookup kc.2.author_id s.users).isSome = true ∧
    (alookup kc.2.post_id s.posts).isSome = true

end BlogApi

namespace ErrH

theorem findPost_mem {pid : Nat} {l : List (Nat × StoredPost)} {p : StoredPost}
    (h : findPost pid l = some p) : (pid, p) ∈ l := by
  induction l with
  | nil => simp [findPost] at h
  | cons kp tl ih =>
    obtain ⟨k, q⟩ := kp
    by_cases hk : k = pid
    · subst hk
      simp [findPost] at h
      subst h
      exact List.mem_cons_self _ _
    · simp [findPost, hk] at h
      exact List.mem_cons_of_mem _ (ih h)

theorem findPost_none {pid : Nat} {l : List (Nat × StoredPost)}
    (h : findPost pid l = none) : ∀ kp ∈ l, kp.1 ≠ pid := by
  induction l with
  | nil => simp
  | cons kp tl ih =>
    obtain ⟨k, q⟩ := kp
    by_cases hk : k = pid
    · subst hk; simp [findPost] at h
    · simp [findPost, hk] at h
      intro x hx
      rcases List.mem_cons.mp hx with hx | hx
      · subst hx; simpa using hk
      · exact ih h x hx

theorem mem_dictInsert {x : Nat × StoredPost} {k : Nat} {v : StoredPost}
    {l : List (Nat × StoredPost)} (h : x ∈ dictInsert k v l) :
    x = (k, v) ∨ x ∈ l := by
  induction l with
  | nil => simp [dictInsert] at h; simp [h]
  | cons kp tl ih =>
    obtain ⟨k', v'⟩ := kp
    by_cases hk : k' = k
    · subst hk
      simp [dictInsert] at h
      rcases h with h | h
      · exact Or.inl h
      · exact Or.inr (List.mem_cons_of_mem _ h)
    · simp [dictInsert, hk] at h
      rcases h with h | h
      · exact Or.inr (by simp [h])
      · rcases ih h with h' | h'
        · exact Or.inl h'
        · exact Or.inr (List.mem_cons_of_mem _ h')

theorem dictInsert_of_fresh {k : Nat} {v : StoredPost} {l : List (Nat × StoredPost)}
    (h : ∀ kp ∈ l, kp.1 ≠ k) : dictInsert k v l = l ++ [(k, v)] := by
  induction l with
  | nil => simp [dictInsert]
  | cons kp tl ih =>
    obtain ⟨k', v'⟩ := kp
    have hk : k' ≠ k := h (k', v') (List.mem_cons_self _ _)
    simp [dictInsert, hk]
    exact ih fun x hx => h x (List.mem_cons_of_mem _ hx)

theorem findPost_dictInsert_self {k : Nat} {v : StoredPost}
    {l : List (Nat × StoredPost)} : findPost k (dictInsert k v l) = some v := by
  induction l with
  | nil => simp [dictInsert, findPost]
  | cons kp tl ih =>
    obtain ⟨k', v'⟩ := kp
    by_cases hk : k' = k
    · subst hk; simp [dictInsert, findPost]
    · simp [dictInsert, findPost, hk, ih]

theorem findPost_dictInsert_ne {k' k : Nat} {v : StoredPost}
    {l : List (Nat × StoredPost)} (h : k' ≠ k) :
    findPost k' (dictInsert k v l) = findPost k' l := by
  induction l with
  | nil => simp [dictInsert, findPost, Ne.symm h]
  | cons kp tl ih =>
    obtain ⟨k0, v0⟩ := kp
    by_cases hk : k0 = k
    · subst hk
      have : k0 ≠ k' := fun hh => h hh.symm
      simp [dictInsert, findPost, this]
    · by_cases hx : k0 = k'
      · subst hx; simp [dictInsert, findPost, hk]
      · simp [dictInsert, findPost, hk, hx, ih]

theorem mem_dictErase {x : Nat × StoredPost} {k : Nat}
    {l : List (Nat × StoredPost)} (h : x ∈ dictErase k l) : x ∈ l := by
  induction l with
  | nil => simp [dictErase] at h
  | cons kp tl ih =>
    obtain ⟨k', v'⟩ := kp
    by_cases hk : k' = k
    · subst hk
      simp [dictErase] at h
      exact List.mem_cons_of_mem _ h
    · simp [dictErase, hk] at h
      rcases h with h | h
      · simp [h]
      · exact List.mem_cons_of_mem _ (ih h)

theorem list_posts_snd (a b : Nat) (f : Option PostStatus) (s : St) :
    (list_posts a b f s).2 = s := rfl

end ErrH

namespace ErrH

theorem check_false_fresh {t : String} {ex : Option Nat} {l : List (Nat × StoredPost)}
    (h : check_title_exists t ex l = .ok false) :
    ∀ kp ∈ l, excludedKey ex kp.1 = false →
      ∀ u, kp.2.title = some u → pyLower u ≠ pyLower t := by
  induction l with
  | nil => simp
  | cons hd tl ih =>
    obtain ⟨k, p⟩ := hd
    intro x hx hxe u hu
    by_cases hk : excludedKey ex k = true
    · simp only [check_title_exists, hk, if_true] at h
      rcases List.mem_cons.mp hx with hx | hx
      · subst hx; simp [hk] at hxe
      · exact ih h x hx hxe u hu
    · simp only [check_title_exists, hk, if_false, Bool.not_eq_true] at h
      rcases hp : p.title with _ | pt
      · simp [hp] at h
      · simp only [hp] at h
        by_cases heq : pyLower pt = pyLower t
        · simp [heq] at h
        · simp only [heq, if_false] at h
          rcases List.mem_cons.mp hx with hx | hx
          · subst hx
            simp only [hp] at hu
            injection hu with hu
            subst hu
            exact heq
          · exact ih h x hx hxe u hu

theorem check_true_of_match {t : String} {ex : Option Nat}
    {l : List (Nat × StoredPost)}
    (hnn : ∀ kp ∈ l, kp.2.title ≠ none)
    {k : Nat} {p : StoredPost} (hmem : (k, p) ∈ l)
    (hke : excludedKey ex k = false)
    {u : String} (hu : p.title = some u) (heq : pyLower u = pyLower t) :
    check_title_exists t ex l = .ok true := by
  induction l with
  | nil => simp at hmem
  | cons hd tl ih =>
    obtain ⟨k0, p0⟩ := hd
    by_cases hk0 : excludedKey ex k0 = true
    · simp only [check_title_exists, hk0, if_true]
      rcases List.mem_cons.mp hmem with hx | hx
      · exfalso
        have h1 : k = k0 := congrArg Prod.fst hx
        rw [h1, hk0] at hke
        exact Bool.true_eq_false.mp hke
      · exact ih (fun y hy => hnn y (List.mem_cons_of_mem _ hy)) hx
    · have hp0 : p0.title ≠ none := hnn (k0, p0) (List.mem_cons_self _ _)
      rcases hq : p0.title with _ | t0
      · exact absurd hq hp0
      · simp only [check_title_exists, hk0, if_false, hq, Bool.not_eq_true]
        by_cases ht0 : pyLower t0 = pyLower t
        · simp [ht0]
        · simp only [ht0, if_false]
          rcases List.mem_cons.mp hmem with hx | hx
          · exfalso
            have h2 : p = p0 := congrArg Prod.snd hx
            rw [h2, hq] at hu
            injection hu with hu
            exact ht0 (hu ▸ heq)
          · exact ih (fun y hy => hnn y (List.mem_cons_of_mem _ hy)) hx

theorem check_no_crash {t : String} {ex : Option Nat}
    {l : List (Nat × StoredPost)}
    (hnn : ∀ kp ∈ l, kp.2.title ≠ none) :
    check_title_exists t ex l = .ok true ∨ check_title_exists t ex l = .ok false := by
  induction l with
  | nil => simp [check_title_exists]
  | cons hd tl ih =>
    obtain ⟨k0, p0⟩ := hd
    have ih' := ih (fun y hy => hnn y (List.mem_cons_of_mem _ hy))
    by_cases hk0 : excludedKey ex k0 = true
    · simpa only [check_title_exists, hk0, if_true] using ih'
    · have hp0 : p0.title ≠ none := hnn (k0, p0) (List.mem_cons_self _ _)
      rcases hq : p0.title with _ | t0
      · exact absurd hq hp0
      · simp only [check_title_exists, hk0, if_false, hq, Bool.not_eq_true]
        by_cases ht0 : pyLower t0 = pyLower t
        · simp [ht0]
        · simpa only [ht0, if_false] using ih'

end ErrH

namespace ErrH

theorem titleFresh_of_subset {u : String} {l l' : List (Nat × StoredPost)}
    (hsub : ∀ x ∈ l', x ∈ l) (h : TitleFresh u l) : TitleFresh u l' :=
  fun kp hkp v hv => h kp (hsub kp hkp) v hv

theorem postsWF_dictErase {k : Nat} {l : List (Nat × StoredPost)}
    (h : PostsWF l) : PostsWF (dictErase k l) := by
  induction l with
  | nil => simpa [dictErase] using h
  | cons hd tl ih =>
    obtain ⟨k0, p0⟩ := hd
    obtain ⟨hkeys, ht, htl⟩ := h
    by_cases hk : k0 = k
    · simpa [dictErase, hk] using htl
    · simp only [dictErase, hk, if_false]
      refine ⟨?_, ?_, ih htl⟩
      · exact fun x hx => hkeys x (mem_dictErase hx)
      · exact fun u hu => titleFresh_of_subset (fun x hx => mem_dictErase hx) (ht u hu)

theorem postsWF_append_one {l : List (Nat × StoredPost)} {k : Nat} {q : StoredPost}
    (hwf : PostsWF l) (hkey : ∀ kp ∈ l, kp.1 ≠ k)
    (htitle : ∀ kp ∈ l, ∀ u v, kp.2.title = some u → q.title = some v →
      pyLower u ≠ pyLower v) :
    PostsWF (l ++ [(k, q)]) := by
  induction l with
  | nil => simp [PostsWF, TitleFresh]
  | cons hd tl ih =>
    obtain ⟨k0, p0⟩ := hd
    obtain ⟨hkeys, ht, htl⟩ := hwf
    refine ⟨?_, ?_, ih htl (fun x hx => hkey x (List.mem_cons_of_mem _ hx))
      (fun x hx => htitle x (List.mem_cons_of_mem _ hx))⟩
    · intro x hx
      rcases List.mem_append.mp hx with hx | hx
      · exact hkeys x hx
      · simp only [List.mem_singleton] at hx
        subst hx
        exact fun hh => (hkey (k0, p0) (List.mem_cons_self _ _)) hh.symm
    · intro u hu x hx v hv
      rcases List.mem_append.mp hx with hx | hx
      · exact ht u hu x hx v hv
      · simp only [List.mem_singleton] at hx
        subst hx
        exact Ne.symm (htitle (k0, p0) (List.mem_cons_self _ _) u v hu hv)

theorem wf_fresh_at {l : List (Nat × StoredPost)} {pid : Nat} {p : StoredPost}
    (hwf : PostsWF l) (hfind : findPost pid l = some p) :
    ∀ u, p.title = some u → ∀ kp ∈ l, kp.1 ≠ pid →
      ∀ v, kp.2.title = some v → pyLower v ≠ pyLower u := by
  induction l with
  | nil => simp [findPost] at hfind
  | cons hd tl ih =>
    obtain ⟨k0, p0⟩ := hd
    obtain ⟨hkeys, ht, htl⟩ := hwf
    intro u hu x hx hxne v hv
    by_cases hk : k0 = pid
    · subst hk
      simp only [findPost, if_pos rfl] at hfind
      injection hfind with hfind
      subst hfind
      rcases List.mem_cons.mp hx with hx | hx
      · exfalso; exact hxne (congrArg Prod.fst hx)
      · exact ht u hu x hx v hv
    · simp only [findPost, hk, if_false] at hfind
      rcases List.mem_cons.mp hx with hx | hx
      · subst hx
        exact fun hh =>
          (ht v hv (pid, p) (findPost_mem hfind) u hu) hh.symm
      · exact ih htl hfind u hu x hx hxne v hv

theorem postsWF_dictInsert {l : List (Nat × StoredPost)} {pid : Nat}
    {p q : StoredPost} (hwf : PostsWF l) (hfind : findPost pid l = some p)
    (hfresh : ∀ u, q.title = some u → ∀ kp ∈ l, kp.1 ≠ pid →
      ∀ v, kp.2.title = some v → pyLower v ≠ pyLower u) :
    PostsWF (dictInsert pid q l) := by
  induction l with
  | nil => simp [findPost] at hfind
  | cons hd tl ih =>
    obtain ⟨k0, p0⟩ := hd
    obtain ⟨hkeys, ht, htl⟩ := hwf
    by_cases hk : k0 = pid
    · subst hk
      simp only [dictInsert, if_pos rfl]
      refine ⟨hkeys, ?_, htl⟩
      intro u hu x hx v hv
      exact hfresh u hu x (List.mem_cons_of_mem _ hx) (hkeys x hx) v hv
    · simp only [dictInsert, hk, if_false]
      simp only [findPost, hk, if_false] at hfind
      refine ⟨?_, ?_, ih htl hfind (fun u hu x hx hxne v hv =>
        hfresh u hu x (List.mem_cons_of_mem _ hx) hxne v hv)⟩
      · intro x hx
        rcases mem_dictInsert hx with hx | hx
        · subst hx; exact fun hh => hk hh.symm
        · exact hkeys x hx
      · intro u hu x hx v hv
        rcases mem_dictInsert hx with hx | hx
        · subst hx
          exact Ne.symm
            (hfresh v hv (k0, p0) (List.mem_cons_self _ _) hk u hu)
        · exact ht u hu x hx v hv

end ErrH

namespace ErrH

theorem inv_initSt : Inv initSt := by
  refine ⟨le_refl 1, ?_, ?_, ?_, ?_⟩ <;> simp [initSt, KeysLt, IdsOK, ViewsOK, PostsWF]

theorem inv_create {s : St} (pc : PostCreate) (now : Nat) (h : Inv s) :
    Inv (create_post pc now s).2 := by
  obtain ⟨hc, hlt, hids, hviews, hwf⟩ := h
  unfold create_post
  rcases hchk : check_title_exists pc.title none s.posts with e | b
  · exact ⟨hc, hlt, hids, hviews, hwf⟩
  · cases b
    · dsimp only
      have hkfresh : ∀ kp ∈ s.posts, kp.1 ≠ s.counter :=
        fun kp hkp => Nat.ne_of_lt (hlt kp hkp)
      refine ⟨Nat.le_succ_of_le hc, ?_, ?_, ?_, ?_⟩
      · intro x hx
        rcases mem_dictInsert hx with hx | hx
        · subst hx; exact Nat.lt_succ_self _
        · exact Nat.lt_succ_of_lt (hlt x hx)
      · intro x hx
        rcases mem_dictInsert hx with hx | hx
        · subst hx; rfl
        · exact hids x hx
      · intro x hx
        rcases mem_dictInsert hx with hx | hx
        · subst hx; exact le_refl 0
        · exact hviews x hx
      · show PostsWF (dictInsert s.counter _ s.posts)
        rw [dictInsert_of_fresh hkfresh]
        refine postsWF_append_one hwf hkfresh ?_
        intro kp hkp u v hu hv
        have hfr := check_false_fresh hchk kp hkp rfl u hu
        injection hv with hv
        rw [hv] at hfr
        exact hfr
    · exact ⟨hc, hlt, hids, hviews, hwf⟩

theorem inv_get {s : St} (pid : Nat) (h : Inv s) : Inv (get_post pid s).2 := by
  obtain ⟨hc, hlt, hids, hviews, hwf⟩ := h
  unfold get_post
  rcases hf : findPost pid s.posts with _ | p
  · exact ⟨hc, hlt, hids, hviews, hwf⟩
  · have hmem := findPost_mem hf
    dsimp only
    refine ⟨hc, ?_, ?_, ?_, ?_⟩
    · intro x hx
      rcases mem_dictInsert hx with hx | hx
      · subst hx; exact hlt (pid, p) hmem
      · exact hlt x hx
    · intro x hx
      rcases mem_dictInsert hx with hx | hx
      · subst hx; exact hids (pid, p) hmem
      · exact hids x hx
    · intro x hx
      rcases mem_dictInsert hx with hx | hx
      · subst hx
        have hv : (0 : Int) ≤ p.views := hviews (pid, p) hmem
        show (0 : Int) ≤ p.views + 1
        omega
      · exact hviews x hx
    · exact postsWF_dictInsert hwf hf (fun u hu => wf_fresh_at hwf hf u hu)

theorem inv_delete {s : St} (pid : Nat) (h : Inv s) : Inv (delete_post pid s).2 := by
  obtain ⟨hc, hlt, hids, hviews, hwf⟩ := h
  unfold delete_post
  rcases hf : findPost pid s.posts with _ | p
  · exact ⟨hc, hlt, hids, hviews, hwf⟩
  · exact ⟨hc, fun x hx => hlt x (mem_dictErase hx),
      fun x hx => hids x (mem_dictErase hx),
      fun x hx => hviews x (mem_dictErase hx),
      postsWF_dictErase hwf⟩

theorem inv_update {s : St} (pid : Nat) (pu : PostUpdate) (now : Nat)
    (hpu : pu.wellFormed) (h : Inv s) : Inv (update_post pid pu now s).2 := by
  obtain ⟨hc, hlt, hids, hviews, hwf⟩ := h
  obtain ⟨hput, _⟩ := hpu
  unfold update_post
  rcases hf : findPost pid s.posts with _ | p
  · exact ⟨hc, hlt, hids, hviews, hwf⟩
  · dsimp only
    have hmem := findPost_mem hf
    have hidp : p.id = pid := hids _ hmem
    have hcommit : ∀ q : StoredPost, q.id = p.id → q.views = p.views →
        (∀ u, q.title = some u → ∀ kp ∈ s.posts, kp.1 ≠ pid →
          ∀ v, kp.2.title = some v → pyLower v ≠ pyLower u) →
        Inv { s with posts := dictInsert pid q s.posts } := by
      intro q hqid hqv hqfresh
      refine ⟨hc, ?_, ?_, ?_, postsWF_dictInsert hwf hf hqfresh⟩
      · intro x hx
        rcases mem_dictInsert hx with hx | hx
        · subst hx; exact hlt (pid, p) hmem
        · exact hlt x hx
      · intro x hx
        rcases mem_dictInsert hx with hx | hx
        · subst hx; show q.id = pid; rw [hqid, hidp]
        · exact hids x hx
      · intro x hx
        rcases mem_dictInsert hx with hx | hx
        · subst hx; show (0 : Int) ≤ q.views; rw [hqv]; exact hviews (pid, p) hmem
        · exact hviews x hx
    rcases hchk : title_check pu pid s.posts with e | b
    · exact ⟨hc, hlt, hids, hviews, hwf⟩
    · cases b
      · dsimp only
        rcases hsc : status_check pu p with e | u
        · exact ⟨hc, hlt, hids, hviews, hwf⟩
        · dsimp only
          refine hcommit (applyUpdate pu now p) rfl rfl ?_
          intro u hu kp hkp hkpne v hv
          rcases hti : pu.title with _ | oti
          · -- title absent: the stored title is unchanged
            rw [applyUpdate, hti] at hu
            exact wf_fresh_at hwf hf u hu kp hkp hkpne v hv
          · rcases oti with _ | t
            · -- explicit null: no title to clash
              rw [applyUpdate, hti] at hu
              simp at hu
            · -- provided title t: the duplicate check ran and returned false
              rw [applyUpdate, hti] at hu
              simp only at hu
              injection hu with hu
              subst hu
              rw [title_check, hti] at hchk
              dsimp only at hchk
              have hlen : ¬ t.length = 0 := by
                rw [hti] at hput
                simp [titleOKb] at hput
                omega
              rw [if_neg hlen] at hchk
              have hex : excludedKey (some pid) kp.1 = false := by
                simp [excludedKey]
                exact hkpne
              have := check_false_fresh hchk kp hkp hex v hv
              exact this
      · exact ⟨hc, hlt, hids, hviews, hwf⟩

theorem inv_reach {s : St} (h : Reach s) : Inv s := by
  induction h with
  | init => exact inv_initSt
  | create pc now _ hwf ih => exact inv_create pc now ih
  | listing skip limit statusQ _ ih => rw [list_posts_snd]; exact ih
  | get pid _ ih => exact inv_get pid ih
  | update pid pu now _ hwf ih => exact inv_update pid pu now hwf ih
  | del pid _ ih => exact inv_delete pid ih

end ErrH

namespace ErrH

theorem create_counter (pc : PostCreate) (now : Nat) (s : St) :
    (create_post pc now s).2.counter =
      s.counter + (if isOk (create_post pc now s).1 then 1 else 0) := by
  unfold create_post
  rcases check_title_exists pc.title none s.posts with e | b
  · simp [isOk]
  · cases b <;> simp [isOk]

theorem update_counter (pid : Nat) (pu : PostUpdate) (now : Nat) (s : St) :
    (update_post pid pu now s).2.counter = s.counter := by
  unfold update_post
  rcases findPost pid s.posts with _ | p
  · rfl
  · dsimp only
    rcases title_check pu pid s.posts with e | b
    · rfl
    · cases b
      · dsimp only
        rcases status_check pu p with e | u <;> rfl
      · rfl

theorem step_counter (s : St) (op : Op) :
    (step s op).counter = s.counter + createInc s op := by
  cases op with
  | create pc now => exact create_counter pc now s
  | listing a b f => rw [step, list_posts_snd]; rfl
  | get pid =>
    show (get_post pid s).2.counter = s.counter + 0
    unfold get_post
    rcases findPost pid s.posts with _ | p <;> rfl
  | update pid pu now =>
    show (update_post pid pu now s).2.counter = s.counter + 0
    rw [update_counter, Nat.add_zero]
  | del pid =>
    show (delete_post pid s).2.counter = s.counter + 0
    unfold delete_post
    rcases findPost pid s.posts with _ | p <;> rfl

theorem run_counter : ∀ (tr : List Op) (s : St),
    (run s tr).counter = s.counter + succCreates s tr := by
  intro tr
  induction tr with
  | nil => intro s; rw [run, succCreates, Nat.add_zero]
  | cons op tl ih =>
    intro s
    rw [run, succCreates, ih (step s op), step_counter s op]
    omega

theorem step_counter_mono (s : St) (op : Op) : s.counter ≤ (step s op).counter := by
  rw [step_counter s op]
  omega

theorem check_error_py {t : String} {ex : Option Nat}
    {l : List (Nat × StoredPost)} {e : Err}
    (h : check_title_exists t ex l = .error e) : e = .py "AttributeError" := by
  induction l with
  | nil => simp [check_title_exists] at h
  | cons hd tl ih =>
    obtain ⟨k, p⟩ := hd
    by_cases hk : excludedKey ex k = true
    · simp only [check_title_exists, hk, if_true] at h
      exact ih h
    · simp only [check_title_exists, hk, if_false, Bool.not_eq_true] at h
      rcases hp : p.title with _ | pt
      · simp only [hp] at h
        injection h with h
        exact h.symm
      · simp only [hp] at h
        by_cases heq : pyLower pt = pyLower t
        · simp [heq] at h
        · simp only [heq, if_false] at h
          exact ih h

theorem title_check_error {pu : PostUpdate} {pid : Nat}
    {l : List (Nat × StoredPost)} {e : Err}
    (h : title_check pu pid l = .error e) : e = .py "AttributeError" := by
  unfold title_check at h
  rcases hti : pu.title with _ | oti
  · rw [hti] at h; simp at h
  · rcases oti with _ | t
    · rw [hti] at h; simp at h
    · rw [hti] at h
      dsimp only at h
      by_cases hlen : t.length = 0
      · rw [if_pos hlen] at h; simp at h
      · rw [if_neg hlen] at h; exact check_error_py h

theorem status_check_error {pu : PostUpdate} {p : StoredPost} {e : Err}
    (h : status_check pu p = .error e) :
    e = .py "ValueError" ∨ ∃ d, e = .http 400 d := by
  unfold status_check at h
  rcases hst : pu.status with _ | ost
  · rw [hst] at h; simp at h
  · rcases ost with _ | st
    · rw [hst] at h; simp at h
    · rw [hst] at h
      dsimp only at h
      rcases hcur : p.status with _ | cur
      · rw [hcur] at h
        dsimp only at h
        injection h with h
        exact Or.inl h.symm
      · rw [hcur] at h
        dsimp only at h
        by_cases harch : cur = PostStatus.archived ∧ st ≠ PostStatus.archived
        · rw [if_pos harch] at h
          injection h with h
          exact Or.inr ⟨_, h.symm⟩
        · rw [if_neg harch] at h
          simp at h

theorem wf_keys_pairwise {l : List (Nat × StoredPost)} (h : PostsWF l) :
    l.Pairwise (fun a b => a.1 ≠ b.1) := by
  induction l with
  | nil => exact List.Pairwise.nil
  | cons hd tl ih =>
    obtain ⟨k, p⟩ := hd
    obtain ⟨hkeys, _, htl⟩ := h
    exact List.Pairwise.cons (fun b hb => fun hh => hkeys b hb hh.symm) (ih htl)

theorem wf_titles_distinct {s : St} (hr : Reach s) :
    ∀ k1 k2 p1 p2, findPost k1 s.posts = some p1 → findPost k2 s.posts = some p2 →
      k1 ≠ k2 → ∀ t1 t2, p1.title = some t1 → p2.title = some t2 →
      pyLower t1 ≠ pyLower t2 := by
  intro k1 k2 p1 p2 h1 h2 hne t1 t2 ht1 ht2
  have hwf := (inv_reach hr).2.2.2.2
  exact fun hh =>
    (wf_fresh_at hwf h1 t1 ht1 (k2, p2) (findPost_mem h2)
      (fun h => hne h.symm) t2 ht2) hh.symm

end ErrH

namespace BlogApi

theorem alookup_ainsert_self {β : Type} {k : Nat} {v : β} {l : List (Nat × β)} :
    alookup k (ainsert k v l) = some v := by
  induction l with
  | nil => simp [ainsert, alookup]
  | cons hd tl ih =>
    obtain ⟨k0, v0⟩ := hd
    by_cases hk : k0 = k
    · subst hk; simp [ainsert, alookup]
    · simp [ainsert, alookup, hk, ih]

theorem alookup_ainsert_ne {β : Type} {k' k : Nat} {v : β} {l : List (Nat × β)}
    (h : k' ≠ k) : alookup k' (ainsert k v l) = alookup k' l := by
  induction l with
  | nil => simp [ainsert, alookup, Ne.symm h]
  | cons hd tl ih =>
    obtain ⟨k0, v0⟩ := hd
    by_cases hk : k0 = k
    · subst hk
      have hne : k0 ≠ k' := Ne.symm h
      simp [ainsert, alookup, hne]
    · by_cases hx : k0 = k'
      · subst hx; simp [ainsert, alookup, hk]
      · simp [ainsert, alookup, hk, hx, ih]

theorem alookup_amodify_self {β : Type} {k : Nat} {f : β → β} {v : β}
    {l : List (Nat × β)} (h : alookup k l = some v) :
    alookup k (amodify k f l) = some (f v) := by
  induction l with
  | nil => simp [alookup] at h
  | cons hd tl ih =>
    obtain ⟨k0, v0⟩ := hd
    by_cases hk : k0 = k
    · subst hk
      simp [alookup] at h
      subst h
      simp [amodify, alookup]
    · simp [alookup, hk] at h
      simp [amodify, alookup, hk, ih h]

theorem alookup_amodify_ne {β : Type} {k' k : Nat} {f : β → β}
    {l : List (Nat × β)} (h : k' ≠ k) :
    alookup k' (amodify k f l) = alookup k' l := by
  induction l with
  | nil => simp [amodify, alookup]
  | cons hd tl ih =>
    obtain ⟨k0, v0⟩ := hd
    by_cases hk : k0 = k
    · subst hk
      have hne : k0 ≠ k' := Ne.symm h
      simp [amodify, alookup, hne]
    · by_cases hx : k0 = k'
      · subst hx; simp [amodify, alookup, hk]
      · simp [amodify, alookup, hk, hx, ih]

theorem amodify_none {β : Type} {k : Nat} {f : β → β} {l : List (Nat × β)}
    (h : alookup k l = none) : alookup k (amodify k f l) = none := by
  induction l with
  | nil => simp [amodify, alookup]
  | cons hd tl ih =>
    obtain ⟨k0, v0⟩ := hd
    by_cases hk : k0 = k
    · subst hk; simp [alookup] at h
    · simp [alookup, hk] at h
      simp [amodify, alookup, hk, ih h]

theorem alookup_amodify_isSome {β : Type} {k' k : Nat} {f : β → β}
    {l : List (Nat × β)} :
    (alookup k' (amodify k f l)).isSome = (alookup k' l).isSome := by
  by_cases hk : k' = k
  · subst hk
    rcases h : alookup k' l with _ | v
    · rw [amodify_none h]
    · rw [alookup_amodify_self h]; rfl
  · rw [alookup_amodify_ne hk]

theorem alookup_ainsert_isSome_mono {β : Type} {k' k : Nat} {v : β}
    {l : List (Nat × β)} (h : (alookup k' l).isSome = true) :
    (alookup k' (ainsert k v l)).isSome = true := by
  by_cases hk : k' = k
  · subst hk; rw [alookup_ainsert_self]; rfl
  · rw [alookup_ainsert_ne hk]; exact h

end BlogApi

namespace BlogApi

theorem alookup_mem {β : Type} {k : Nat} {v : β} {l : List (Nat × β)}
    (h : alookup k l = some v) : (k, v) ∈ l := by
  induction l with
  | nil => simp [alookup] at h
  | cons hd tl ih =>
    obtain ⟨k0, v0⟩ := hd
    by_cases hk : k0 = k
    · subst hk
      simp [alookup] at h
      subst h
      exact List.mem_cons_self _ _
    · simp [alookup, hk] at h
      exact List.mem_cons_of_mem _ (ih h)

theorem mem_ainsert {β : Type} {x : Nat × β} {k : Nat} {v : β}
    {l : List (Nat × β)} (h : x ∈ ainsert k v l) : x = (k, v) ∨ x ∈ l := by
  induction l with
  | nil => simp [ainsert] at h; simp [h]
  | cons hd tl ih =>
    obtain ⟨k0, v0⟩ := hd
    by_cases hk : k0 = k
    · subst hk
      simp [ainsert] at h
      rcases h with h | h
      · exact Or.inl h
      · exact Or.inr (List.mem_cons_of_mem _ h)
    · simp [ainsert, hk] at h
      rcases h with h | h
      · exact Or.inr (by simp [h])
      · rcases ih h with h' | h'
        · exact Or.inl h'
        · exact Or.inr (List.mem_cons_of_mem _ h')

theorem mem_amodify {β : Type} {x : Nat × β} {k : Nat} {f : β → β}
    {l : List (Nat × β)} (h : x ∈ amodify k f l) :
    x ∈ l ∨ ∃ v, (k, v) ∈ l ∧ x = (k, f v) := by
  induction l with
  | nil => simp [amodify] at h
  | cons hd tl ih =>
    obtain ⟨k0, v0⟩ := hd
    by_cases hk : k0 = k
    · subst hk
      simp only [amodify, if_pos rfl] at h
      rcases List.mem_cons.mp h with h | h
      · exact Or.inr ⟨v0, List.mem_cons_self _ _, h⟩
      · exact Or.inl (List.mem_cons_of_mem _ h)
    · simp only [amodify, hk, if_false] at h
      rcases List.mem_cons.mp h with h | h
      · exact Or.inl (by simp [h])
      · rcases ih h with h' | ⟨v, hv, hx⟩
        · exact Or.inl (List.mem_cons_of_mem _ h')
        · exact Or.inr ⟨v, List.mem_cons_of_mem _ hv, hx⟩

theorem dbInv_reach {s : Db} (h : Reach s) : UserIdsOK s.users ∧ RefsOK s := by
  induction h with
  | init =>
    constructor
    · intro x hx; simp [initDb] at hx
    · intro x hx; simp [initDb] at hx
  | @user t uid uc now _ ih =>
    obtain ⟨hids, hrefs⟩ := ih
    unfold create_user
    dsimp only
    constructor
    · intro ku hku
      rcases mem_ainsert hku with h | h
      · subst h; rfl
      · exact hids ku h
    · intro kc hkc
      obtain ⟨ha, hp⟩ := hrefs kc hkc
      exact ⟨alookup_ainsert_isSome_mono ha, hp⟩
  | @post t uid pc pid now _ ih =>
    obtain ⟨hids, hrefs⟩ := ih
    unfold create_post get_current_user
    rcases hu : alookup uid t.users with _ | u
    · exact ⟨hids, hrefs⟩
    · dsimp only
      constructor
      · intro ku hku
        rcases mem_amodify hku with h | ⟨v, hv, hx⟩
        · exact hids ku h
        · subst hx
          exact hids (uid, v) hv
      · intro kc hkc
        obtain ⟨ha, hp⟩ := hrefs kc hkc
        rw [alookup_amodify_isSome]
        exact ⟨ha, alookup_ainsert_isSome_mono hp⟩
  | @comment t uid pid cc cid now _ ih =>
    obtain ⟨hids, hrefs⟩ := ih
    unfold create_comment get_current_user
    rcases hu : alookup uid t.users with _ | u
    · exact ⟨hids, hrefs⟩
    · dsimp only
      rcases hp : alookup pid t.posts with _ | p
      · exact ⟨hids, hrefs⟩
      · dsimp only
        have huid : u.id = uid := hids (uid, u) (alookup_mem hu)
        constructor
        · intro ku hku
          rcases mem_amodify hku with h | ⟨v, hv, hx⟩
          · exact hids ku h
          · subst hx
            exact hids (u.id, v) hv
        · intro kc hkc
          rcases mem_ainsert hkc with h | h
          · subst h
            constructor
            · rw [alookup_amodify_isSome, huid, hu]; rfl
            · rw [alookup_amodify_isSome]
              show (alookup pid t.posts).isSome = true
              rw [hp]; rfl
          · obtain ⟨ha, hpo⟩ := hrefs kc h
            rw [alookup_amodify_isSome, alookup_amodify_isSome]
            exact ⟨ha, hpo⟩

end BlogApi

namespace ErrH

/-- C3 (code bug at the failing input): in the 09 variant, `GET /posts/`
against an empty store — e.g. the first request after startup — does not
produce any HTTPException (400/404/422) and no 204: the empty-list branch
evaluates `status.HTTP_204_NO_CONTENT` on the `status` query parameter
(which shadows the `fastapi.status` module and is `None` here), an unhandled
`AttributeError` that the framework turns into a 500.  The same happens with
a status filter that matches nothing. -/
theorem C3_list_posts_crash :
    list_posts 0 10 none initSt = (.error (.py "AttributeError"), initSt) ∧
    list_posts 0 10 (some .published) exStArchived =
      (.error (.py "AttributeError"), exStArchived) := by
  constructor <;> rfl

/-- C1 counterexample: a PATCH whose JSON body is exactly the object setting
status to null — a validated request, since `status` is `Optional` — reaches
`update_post` on the stored archived post 1; `if post_update.status` is falsy
for `None`, so the transition check is skipped, while
`dict(exclude_unset=True)` keeps the explicitly-set field, so the handler
succeeds and the stored status is no longer "archived". -/
theorem C1_counterexample :
    exPcArchived.wellFormed ∧ exNullStatusUpdate.wellFormed ∧
    findPost 1 exStArchived.posts =
      some { id := 1, title := some "My Archived Post", content := some exContent,
             author := "Jo", status := some .archived, created_at := 0,
             updated_at := 0, views := 0 } ∧
    update_post 1 exNullStatusUpdate 1 exStArchived =
      (.ok { id := 1, title := some "My Archived Post", content := some exContent,
             author := "Jo", status := none, created_at := 0, updated_at := 1,
             views := 0 },
       { posts := [(1, { id := 1, title := some "My Archived Post",
                         content := some exContent, author := "Jo",
                         status := none, created_at := 0, updated_at := 1,
                         views := 0 })],
         counter := 2 }) := by
  refine ⟨by decide, by decide, by decide, by rfl⟩

/-- C1 (amended): for every stored post whose status is "archived", an update
request that sets the status field to an actual status value (draft or
published, not null) other than "archived" and does not set the title is
rejected with HTTP 400 and leaves the store unchanged, so the post stays
archived. -/
theorem C1_archived_locked (s : St) (pid : Nat) (p : StoredPost)
    (pu : PostUpdate) (now : Nat) (st : PostStatus)
    (hf : findPost pid s.posts = some p)
    (harch : p.status = some .archived)
    (hst : pu.status = some (some st))
    (hne : st ≠ .archived)
    (hti : pu.title = none) :
    update_post pid pu now s =
      (.error (.http 400 ("Cannot transition from " ++ PostStatus.archived.value
        ++ " to " ++ st.value)), s) := by
  unfold update_post
  rw [hf]
  dsimp only
  have htc : title_check pu pid s.posts = .ok false := by
    unfold title_check; rw [hti]
  rw [htc]
  dsimp only
  have hsc : status_check pu p =
      .error (.http 400 ("Cannot transition from " ++ PostStatus.archived.value
        ++ " to " ++ st.value)) := by
    unfold status_check
    rw [hst, harch]
    dsimp only
    rw [if_pos ⟨rfl, hne⟩]
  rw [hsc]

/-- Witness for C1_archived_locked: setting status to "published" on the
stored archived post 1 is refused with a 400 and the store is unchanged. -/
theorem C1_archived_locked_witness :
    update_post 1 { status := some (some .published) } 5 exStArchived =
      (.error (.http 400 ("Cannot transition from " ++ PostStatus.archived.value
        ++ " to " ++ PostStatus.published.value)), exStArchived) :=
  C1_archived_locked exStArchived 1
    { id := 1, title := some "My Archived Post", content := some exContent,
      author := "Jo", status := some .archived, created_at := 0,
      updated_at := 0, views := 0 }
    { status := some (some .published) } 5 .published
    (by decide) (by decide) (by decide) (by decide) (by decide)

end ErrH

namespace ErrH

theorem findPost_none_of_fresh {k : Nat} {l : List (Nat × StoredPost)}
    (h : ∀ kp ∈ l, kp.1 ≠ k) : findPost k l = none := by
  induction l with
  | nil => rfl
  | cons hd tl ih =>
    obtain ⟨k0, p0⟩ := hd
    have hk : k0 ≠ k := h (k0, p0) (List.mem_cons_self _ _)
    simp only [findPost, hk, if_false]
    exact ih fun x hx => h x (List.mem_cons_of_mem _ hx)

/-- C4: in the 09 variant, `get_post`, `update_post` and `delete_post` raise
HTTP 404 "Post not found" exactly for ids absent from `posts_db`; for a
present id none of the three ever produces a 404 (they may fail with 400 or
an unhandled exception, but not 404). -/
theorem C4_missing_gives_404 (s : St) (pid : Nat) (pu : PostUpdate) (now : Nat) :
    (findPost pid s.posts = none →
      get_post pid s = (.error (.http 404 "Post not found"), s) ∧
      update_post pid pu now s = (.error (.http 404 "Post not found"), s) ∧
      delete_post pid s = (.error (.http 404 "Post not found"), s)) ∧
    (∀ p, findPost pid s.posts = some p →
      raised404 (get_post pid s) = false ∧
      raised404 (update_post pid pu now s) = false ∧
      raised404 (delete_post pid s) = false) := by
  constructor
  · intro h
    refine ⟨?_, ?_, ?_⟩
    · unfold get_post; rw [h]
    · unfold update_post; rw [h]
    · unfold delete_post; rw [h]
  · intro p hp
    refine ⟨?_, ?_, ?_⟩
    · unfold get_post; rw [hp]; rfl
    · unfold update_post; rw [hp]
      dsimp only
      rcases hchk : title_check pu pid s.posts with e | b
      · have he := title_check_error hchk
        subst he
        rfl
      · cases b
        · dsimp only
          rcases hsc : status_check pu p with e | u
          · rcases status_check_error hsc with he | ⟨d, he⟩ <;> subst he <;> rfl
          · rfl
        · rfl
    · unfold delete_post; rw [hp]; rfl

/-- Witness for C4_missing_gives_404: id 2 is absent from the one-post store
and gets a 404 from `get_post`; id 1 is present and `update_post` does not
404 on it. -/
theorem C4_missing_gives_404_witness :
    get_post 2 exStDraft = (.error (.http 404 "Post not found"), exStDraft) ∧
    raised404 (update_post 1 {} 7 exStDraft) = false :=
  ⟨((C4_missing_gives_404 exStDraft 2 {} 7).1 (by decide)).1,
   ((C4_missing_gives_404 exStDraft 1 {} 7).2 exPost1 (by decide)).2.1⟩

/-- C8: in the 09 variant, whenever `create_post`, `update_post` or
`delete_post` ends in an error (HTTP 400/404 or an unhandled exception), the
store after the call is exactly the store before it: every mutation happens
only after all checks have passed. -/
theorem C8_error_atomic (s : St) (pc : PostCreate) (now1 : Nat)
    (pid : Nat) (pu : PostUpdate) (now2 : Nat) :
    (∀ e, (create_post pc now1 s).1 = .error e → (create_post pc now1 s).2 = s) ∧
    (∀ e, (update_post pid pu now2 s).1 = .error e →
      (update_post pid pu now2 s).2 = s) ∧
    (∀ e, (delete_post pid s).1 = .error e → (delete_post pid s).2 = s) := by
  refine ⟨?_, ?_, ?_⟩
  · intro e h
    unfold create_post at h ⊢
    rcases hchk : check_title_exists pc.title none s.posts with e' | b
    · rfl
    · cases b
      · rw [hchk] at h
        exact Except.noConfusion h
      · rfl
  · intro e h
    unfold update_post at h ⊢
    rcases hf : findPost pid s.posts with _ | p
    · rfl
    · rw [hf] at h
      dsimp only at h ⊢
      rcases hchk : title_check pu pid s.posts with e' | b
      · rfl
      · cases b
        · rw [hchk] at h
          dsimp only at h ⊢
          rcases hsc : status_check pu p with e' | u
          · rfl
          · rw [hsc] at h
            exact Except.noConfusion h
        · rfl
  · intro e h
    unfold delete_post at h ⊢
    rcases hf : findPost pid s.posts with _ | p
    · rfl
    · rw [hf] at h
      exact Except.noConfusion h

/-- Witness for C8_error_atomic: deleting the absent id 1 from the empty
startup store fails and leaves the store empty. -/
theorem C8_error_atomic_witness : (delete_post 1 initSt).2 = initSt :=
  (C8_error_atomic initSt exPcDraft 0 1 {} 0).2.2
    (.http 404 "Post not found") rfl

/-- C9: in the 09 variant, reading a present post increments exactly that
post's `views` by 1 (all its other fields unchanged), returns the updated
record, leaves every other entry of the store untouched and does not change
the id counter. -/
theorem C9_get_post_frame (s : St) (pid : Nat) (p : StoredPost)
    (hf : findPost pid s.posts = some p) :
    (get_post pid s).1 = .ok { p with views := p.views + 1 } ∧
    findPost pid (get_post pid s).2.posts = some { p with views := p.views + 1 } ∧
    (∀ k, k ≠ pid → findPost k (get_post pid s).2.posts = findPost k s.posts) ∧
    (get_post pid s).2.counter = s.counter := by
  unfold get_post
  rw [hf]
  dsimp only
  exact ⟨rfl, findPost_dictInsert_self, fun k hk => findPost_dictInsert_ne hk, rfl⟩

/-- Witness for C9_get_post_frame: reading post 1 of the one-post store bumps
its views to 1 and touches nothing else. -/
theorem C9_get_post_frame_witness :
    (get_post 1 exStDraft).1 = .ok { exPost1 with views := exPost1.views + 1 } ∧
    findPost 2 (get_post 1 exStDraft).2.posts = findPost 2 exStDraft.posts :=
  ⟨(C9_get_post_frame exStDraft 1 exPost1 (by decide)).1,
   (C9_get_post_frame exStDraft 1 exPost1 (by decide)).2.2.1 2 (by decide)⟩

end ErrH

namespace ErrH

/-- C5: views and likes are non-negative everywhere they occur: a `Video`
body is only accepted when its `views` and `likes` are at least 0; every
blog post is created with `views = 0`; and in every store reachable through
validated requests every stored view counter is non-negative (reading a post
only increments it). -/
theorem C5_views_likes_nonneg :
    (∀ v : PathP.Video, v.accepted → 0 ≤ v.views ∧ 0 ≤ v.likes) ∧
    (∀ (pc : PostCreate) (now : Nat) (s : St) (r : StoredPost) (s2 : St),
      create_post pc now s = (.ok r, s2) → r.views = 0) ∧
    (∀ s : St, Reach s → ViewsOK s.posts) := by
  refine ⟨?_, ?_, ?_⟩
  · intro v hv
    exact ⟨hv.2.2.2.1, hv.2.2.2.2⟩
  · intro pc now s r s2 h
    unfold create_post at h
    rcases hchk : check_title_exists pc.title none s.posts with e | b
    · rw [hchk] at h
      exact Except.noConfusion (congrArg Prod.fst h)
    · cases b
      · rw [hchk] at h
        dsimp only at h
        have h1 := congrArg Prod.fst h
        dsimp only at h1
        injection h1 with h1
        rw [← h1]
      · rw [hchk] at h
        exact Except.noConfusion (congrArg Prod.fst h)
  · intro s hr
    exact (inv_reach hr).2.2.2.1

/-- Witness for C5_views_likes_nonneg: the first static video has
non-negative counters, the first created blog post has 0 views, and the
one-post store reached by a validated create has only non-negative views. -/
theorem C5_views_likes_nonneg_witness :
    (0 ≤ PathP.exVideo.views ∧ 0 ≤ PathP.exVideo.likes) ∧
    exPost1.views = 0 ∧ ViewsOK exStDraft.posts :=
  ⟨C5_views_likes_nonneg.1 PathP.exVideo (by decide),
   C5_views_likes_nonneg.2.1 exPcDraft 0 initSt exPost1 exStDraft (by rfl),
   C5_views_likes_nonneg.2.2 exStDraft (Reach.create exPcDraft 0 Reach.init (by decide))⟩

/-- C2 (amended): in the 09 variant, any two distinct posts of a reachable
store have case-insensitively distinct titles whenever both titles are
present (a title can only be missing after an explicit-null update); and
`create_post` / `update_post` answer HTTP 400 and leave the store unchanged
whenever the requested title collides case-insensitively with another stored
title, provided no stored title has been nulled.  In the 04 variant
`update_post` performs no such check and a colliding update fails with the
database's IntegrityError instead (see the counterexample). -/
theorem C2_title_unique (s : St) (pc : PostCreate) (pid : Nat)
    (pu : PostUpdate) (now : Nat) (t : String) :
    (Reach s → ∀ k1 k2 p1 p2, findPost k1 s.posts = some p1 →
      findPost k2 s.posts = some p2 → k1 ≠ k2 →
      ∀ t1 t2, p1.title = some t1 → p2.title = some t2 →
        pyLower t1 ≠ pyLower t2) ∧
    ((∀ kp ∈ s.posts, kp.2.title ≠ none) →
      (∃ kp ∈ s.posts, ∃ u, kp.2.title = some u ∧
        pyLower u = pyLower pc.title) →
      create_post pc now s =
        (.error (.http 400 "A post with this title already exists"), s)) ∧
    ((∀ kp ∈ s.posts, kp.2.title ≠ none) →
      pu.title = some (some t) → pu.wellFormed →
      (∃ kp ∈ s.posts, kp.1 ≠ pid ∧ ∃ u, kp.2.title = some u ∧
        pyLower u = pyLower t) →
      (∃ p, findPost pid s.posts = some p) →
      update_post pid pu now s =
        (.error (.http 400 "A post with this title already exists"), s)) := by
  refine ⟨?_, ?_, ?_⟩
  · intro hr
    exact wf_titles_distinct hr
  · intro hnn hex
    obtain ⟨kp, hkp, u, hu, heq⟩ := hex
    unfold create_post
    have hchk : check_title_exists pc.title none s.posts = .ok true :=
      check_true_of_match hnn hkp rfl hu heq
    rw [hchk]
  · intro hnn hti hwfpu hex hfp
    obtain ⟨kp, hkp, hkne, u, hu, heq⟩ := hex
    obtain ⟨p, hf⟩ := hfp
    unfold update_post
    rw [hf]
    dsimp only
    have hlen : ¬ t.length = 0 := by
      obtain ⟨hput, _⟩ := hwfpu
      rw [hti] at hput
      simp [titleOKb] at hput
      omega
    have hke : excludedKey (some pid) kp.1 = false := by
      simp [excludedKey]
      exact hkne
    have htc : title_check pu pid s.posts = .ok true := by
      unfold title_check
      rw [hti]
      dsimp only
      rw [if_neg hlen]
      exact check_true_of_match hnn hkp hke hu heq
    rw [htc]

end ErrH

namespace PydSA

/-- C2 counterexample: in the 04-Pydantic variant `update_post` has no
duplicate-title check at all; retitling post 2 to post 1's exact title passes
every handler check, and it is `db.commit()` that fails with the UNIQUE
constraint's IntegrityError — an unhandled exception (500 response), not the
HTTP 400 the claim promises.  The table is left unchanged by the rolled-back
transaction. -/
theorem C2_counterexample :
    (update_post 2 exDupTitleUpdate exTblTwo).1 = .error (.py "IntegrityError") ∧
    (update_post 2 exDupTitleUpdate exTblTwo).2 = exTblTwo ∧
    (update_post 2 exDupTitleUpdate exTblTwo).1 ≠
      .error (.http 400 "A post with this title already exists") := by
  refine ⟨by rfl, by decide, ?_⟩
  intro h
  rw [show (update_post 2 exDupTitleUpdate exTblTwo).1
      = .error (.py "IntegrityError") from rfl] at h
  injection h with h2
  exact Err.noConfusion h2

end PydSA

namespace ErrH

/-- Witness for C2_title_unique: in the two-post store, the two stored titles
differ case-insensitively; recreating post 1's title is refused with 400; and
retitling post 2 to post 1's title is refused with 400. -/
theorem C2_title_unique_witness :
    pyLower "Hello World Post" ≠ pyLower "My Archived Post" ∧
    create_post exPcDraft 5 exStTwo =
      (.error (.http 400 "A post with this title already exists"), exStTwo) ∧
    update_post 2 { title := some (some "Hello World Post") } 9 exStTwo =
      (.error (.http 400 "A post with this title already exists"), exStTwo) := by
  refine ⟨?_, ?_, ?_⟩
  · exact (C2_title_unique exStTwo exPcDraft 2 {} 9 "x").1
      (Reach.create exPcArchived 1 (Reach.create exPcDraft 0 Reach.init (by decide)) (by decide))
      1 2 exPost1 exPost2 (by decide) (by decide) (by decide)
      "Hello World Post" "My Archived Post" (by decide) (by decide)
  · exact (C2_title_unique exStTwo exPcDraft 2 {} 9 "x").2.1
      (by decide)
      ⟨(1, exPost1), by decide, "Hello World Post", by decide, by decide⟩
  · exact (C2_title_unique exStTwo exPcDraft 2
        { title := some (some "Hello World Post") } 9 "Hello World Post").2.2
      (by decide) (by decide) (by decide)
      ⟨(1, exPost1), by decide, by decide, "Hello World Post", by decide, by decide⟩
      ⟨exPost2, by decide⟩

end ErrH

namespace ErrH

/-- C10: in the 09 variant post ids come from the global `counter`, which
starts at 1 and only grows: along any run from startup the counter equals 1
plus the number of succeeding creates (so the n-th succeeding create is
assigned id n), a succeeding create is assigned the current counter and
increments it, no call ever decreases the counter, and in every reachable
store the keys are pairwise-distinct ids below the counter — so a fresh id
never collides with a stored one, even after deletions. -/
theorem C10_counter_ids :
    (∀ s : St, Reach s → 1 ≤ s.counter ∧ KeysLt s.counter s.posts ∧
      IdsOK s.posts ∧ s.posts.Pairwise (fun a b => a.1 ≠ b.1) ∧
      findPost s.counter s.posts = none) ∧
    (∀ (pc : PostCreate) (now : Nat) (s : St) (r : StoredPost) (s2 : St),
      create_post pc now s = (.ok r, s2) →
        r.id = s.counter ∧ s2.counter = s.counter + 1) ∧
    (∀ tr : List Op, (run initSt tr).counter = 1 + succCreates initSt tr) ∧
    (∀ (s : St) (op : Op), s.counter ≤ (step s op).counter) := by
  refine ⟨?_, ?_, ?_, step_counter_mono⟩
  · intro s hr
    obtain ⟨hc, hlt, hids, hviews, hwf⟩ := inv_reach hr
    exact ⟨hc, hlt, hids, wf_keys_pairwise hwf,
      findPost_none_of_fresh (fun kp hkp => Nat.ne_of_lt (hlt kp hkp))⟩
  · intro pc now s r s2 h
    unfold create_post at h
    rcases hchk : check_title_exists pc.title none s.posts with e | b
    · rw [hchk] at h
      exact Except.noConfusion (congrArg Prod.fst h)
    · cases b
      · rw [hchk] at h
        dsimp only at h
        have h1 := congrArg Prod.fst h
        have h2 := congrArg Prod.snd h
        dsimp only at h1 h2
        injection h1 with h1
        constructor
        · rw [← h1]
        · rw [← h2]
      · rw [hchk] at h
        exact Except.noConfusion (congrArg Prod.fst h)
  · intro tr
    rw [run_counter tr initSt]
    rfl

/-- Witness for C10_counter_ids: the store after one create has counter 2,
distinct keys, and the first create got id 1 = the initial counter. -/
theorem C10_counter_ids_witness :
    (1 ≤ exStDraft.counter ∧ KeysLt exStDraft.counter exStDraft.posts ∧
      IdsOK exStDraft.posts ∧
      exStDraft.posts.Pairwise (fun a b => a.1 ≠ b.1) ∧
      findPost exStDraft.counter exStDraft.posts = none) ∧
    (exPost1.id = initSt.counter ∧ exStDraft.counter = initSt.counter + 1) ∧
    (run initSt [.create exPcDraft 0]).counter =
      1 + succCreates initSt [.create exPcDraft 0] :=
  ⟨C10_counter_ids.1 exStDraft (Reach.create exPcDraft 0 Reach.init (by decide)),
   C10_counter_ids.2.1 exPcDraft 0 initSt exPost1 exStDraft (by rfl),
   C10_counter_ids.2.2.1 [.create exPcDraft 0]⟩

end ErrH

namespace BlogApi

/-- C6: a comment belongs to exactly one user and one post: `create_comment`
404s on a missing post id; on success it stores a comment whose `author_id`
is the requesting user's id and whose `post_id` is the given post id, and
appends it to that post's and that user's comment lists; and in every
reachable store each comment's `author_id` and `post_id` point at an
existing user and post. -/
theorem C6_comment_ownership (s : Db) (uid pid cid now : Nat)
    (cc : CommentCreate) (u : User) (p : Post) :
    (alookup uid s.users = some u → alookup pid s.posts = none →
      create_comment uid pid cc cid now s =
        (.error (.http 404 "Post not found"), s)) ∧
    (alookup uid s.users = some u → alookup pid s.posts = some p →
      (create_comment uid pid cc cid now s).1 =
        .ok { id := cid, content := cc.content, created_at := now,
              updated_at := none, author_id := u.id, post_id := pid } ∧
      alookup cid (create_comment uid pid cc cid now s).2.comments =
        some { id := cid, content := cc.content, created_at := now,
               updated_at := none, author_id := u.id, post_id := pid } ∧
      alookup pid (create_comment uid pid cc cid now s).2.posts =
        some { p with comments := p.comments ++ [cid] } ∧
      (u.id = uid →
        alookup uid (create_comment uid pid cc cid now s).2.users =
          some { u with comments := u.comments ++ [cid] })) ∧
    (Reach s → RefsOK s) := by
  refine ⟨?_, ?_, fun hr => (dbInv_reach hr).2⟩
  · intro hu hp
    unfold create_comment get_current_user
    rw [hu]
    dsimp only
    rw [hp]
  · intro hu hp
    unfold create_comment get_current_user
    rw [hu]
    dsimp only
    rw [hp]
    dsimp only
    refine ⟨rfl, alookup_ainsert_self, alookup_amodify_self hp, ?_⟩
    intro huid
    subst huid
    exact alookup_amodify_self hu

/-- Witness for C6_comment_ownership: commenting on the absent post 99 gives
404; alice's comment 30 on post 20 is stored with her id and the post's id;
and the three-object store satisfies the reference invariant. -/
theorem C6_comment_ownership_witness :
    create_comment 10 99 exCommentBody 31 3 exDbUP =
      (.error (.http 404 "Post not found"), exDbUP) ∧
    alookup 30 exDbUPC.comments =
      some { id := 30, content := "Nice post", created_at := 2,
             updated_at := none, author_id := exAliceU1.id, post_id := 20 } ∧
    RefsOK exDbUPC :=
  ⟨(C6_comment_ownership exDbUP 10 99 31 3 exCommentBody exAliceU1 exPost20).1
      (by decide) (by decide),
   ((C6_comment_ownership exDbUP 10 20 30 2 exCommentBody exAliceU1 exPost20).2.1
      (by decide) (by decide)).2.1,
   (C6_comment_ownership exDbUPC 10 20 30 2 exCommentBody exAliceU1 exPost20).2.2
      (Reach.comment 10 20 exCommentBody 30 2
        (Reach.post 10 exPostBody 20 1
          (Reach.user 10 exAlice 0 Reach.init)))⟩

/-- C7: a post belongs to exactly one user: `create_post` for an unknown user
id 404s; for an existing user it stores a post whose `author_id` is that
user's id and appends the post to the user's posts list; `create_user` does
not touch the posts table, a fresh-id `create_post` preserves every existing
post, and `create_comment` never changes any post's `author_id` (no other
operation writes posts). -/
theorem C7_post_ownership (s : Db) (uid pid now : Nat) (pc : PostCreate)
    (u : User) :
    (alookup uid s.users = none →
      create_post uid pc pid now s = (.error (.http 404 "User not found"), s)) ∧
    (alookup uid s.users = some u →
      (create_post uid pc pid now s).1 =
        .ok { id := pid, title := pc.title, content := pc.content,
              created_at := now, updated_at := none, published := pc.published,
              author_id := uid, comments := [] } ∧
      alookup pid (create_post uid pc pid now s).2.posts =
        some { id := pid, title := pc.title, content := pc.content,
               created_at := now, updated_at := none, published := pc.published,
               author_id := uid, comments := [] } ∧
      alookup uid (create_post uid pc pid now s).2.users =
        some { u with posts := u.posts ++ [pid] }) ∧
    (∀ (uid2 : Nat) (uc : UserCreate) (now2 : Nat),
      (create_user uid2 uc now2 s).2.posts = s.posts) ∧
    (alookup pid s.posts = none →
      ∀ k q, alookup k s.posts = some q →
        alookup k (create_post uid pc pid now s).2.posts = some q) ∧
    (∀ (uid2 pid2 : Nat) (cc : CommentCreate) (cid2 now2 k : Nat),
      (alookup k (create_comment uid2 pid2 cc cid2 now2 s).2.posts).map
          Post.author_id =
        (alookup k s.posts).map Post.author_id) := by
  refine ⟨?_, ?_, fun uid2 uc now2 => rfl, ?_, ?_⟩
  · intro hu
    unfold create_post get_current_user
    rw [hu]
  · intro hu
    unfold create_post get_current_user
    rw [hu]
    dsimp only
    exact ⟨rfl, alookup_ainsert_self, alookup_amodify_self hu⟩
  · intro hp k q hk
    unfold create_post get_current_user
    rcases hu : alookup uid s.users with _ | u2
    · exact hk
    · dsimp only
      have hkne : k ≠ pid := by
        intro hh
        subst hh
        rw [hk] at hp
        exact Option.noConfusion hp
      rw [alookup_ainsert_ne hkne]
      exact hk
  · intro uid2 pid2 cc cid2 now2 k
    unfold create_comment get_current_user
    rcases hu2 : alookup uid2 s.users with _ | u2
    · rfl
    · dsimp only
      rcases hp2 : alookup pid2 s.posts with _ | p2
      · rfl
      · dsimp only
        by_cases hk : k = pid2
        · subst hk
          rw [alookup_amodify_self hp2, hp2]
          rfl
        · rw [alookup_amodify_ne hk]

/-- Witness for C7_post_ownership: creating a post as the unknown user 55
gives 404; alice's post 20 is stored with author 10 and appended to her
list; commenting does not change post 20's author. -/
theorem C7_post_ownership_witness :
    create_post 55 exPostBody 21 4 exDbU =
      (.error (.http 404 "User not found"), exDbU) ∧
    alookup 20 exDbUP.posts = some exPost20 ∧
    alookup 10 exDbUP.users = some { exAliceU0 with posts := [20] } ∧
    (alookup 20 exDbUPC.posts).map Post.author_id =
      (alookup 20 exDbUP.posts).map Post.author_id :=
  ⟨(C7_post_ownership exDbU 55 21 4 exPostBody exAliceU0).1 (by decide),
   ((C7_post_ownership exDbU 10 20 1 exPostBody exAliceU0).2.1 (by decide)).2.1,
   ((C7_post_ownership exDbU 10 20 1 exPostBody exAliceU0).2.1 (by decide)).2.2,
   (C7_post_ownership exDbUP 10 20 1 exPostBody exAliceU1).2.2.2.2
      10 20 exCommentBody 30 2 20⟩

end BlogApi
